import Mathlib

/-!
Verification of the SDT-Agent workflow engine and its surrounding data model.

This file shallowly embeds the parts of the repository that the verified
properties are about:

* agent/sdt_types.py          : the WorkflowState record and its field dicts
* agent/main_agent.py         : SDTAgent.should_retry (the conditional edge)
* agent/nodes/test_and_lint_node.py : TestAndLintNode.run
* agent/nodes/commit_and_pr_node.py : CommitAndPRNode.run (remote calls counted)
* agent/nodes/code_generation_node.py / test_generation_node.py :
  the updated_files accumulation and the test path normalization
* agent/helpers.py            : get_test_dir, is_test_file, path helpers

External collaborators (the LLM, the GitHub REST API, the subprocess runner,
the on-disk repository) are modelled as explicit environment parameters:
a process run is a total function returning exit code, stdout and stderr,
file existence and readability are predicates, and the generation oracle is
an opaque function.  Python dict truthiness and dict.get defaults are
modelled explicitly where the code relies on them.
-/

namespace SDT

open scoped List

/-- Split of a character list at every occurrence of a separator
character, mirroring str.split / String.splitOn with a one-character
separator.  Structural recursion keeps every definition built on it
evaluable by the kernel. -/
def splitChar (sep : Char) : List Char → List (List Char)
  | [] => [[]]
  | c :: rest =>
    let r := splitChar sep rest
    if c = sep then [] :: r
    else
      match r with
      | [] => [[c]]
      | h :: t => (c :: h) :: t

/-- Whether the pattern occurs at the head of the list. -/
def patAtHead : List Char → List Char → Bool
  | _, [] => true
  | [], _ :: _ => false
  | c :: cs, p :: ps => c = p && patAtHead cs ps

/-- Whether the pattern occurs anywhere in the list. -/
def patInside (pat : List Char) : List Char → Bool
  | [] => pat.isEmpty
  | c :: rest => patAtHead (c :: rest) pat || patInside pat rest

/-- Containment of a literal pattern in a string, mirroring the Python
in operator on str. -/
def strContains (s pat : String) : Bool :=
  patInside pat.data s.data

/-- Mirror of str.endswith. -/
def strEndsWith (s pat : String) : Bool :=
  patAtHead s.data.reverse pat.data.reverse

/-- ASCII lowercase of one character, mirroring str.lower on the
character sets the code compares against. -/
def lowerChar (c : Char) : Char :=
  if 65 ≤ c.toNat && c.toNat ≤ 90 then Char.ofNat (c.toNat + 32) else c

/-- ASCII lowercase of a string. -/
def lowerStr (s : String) : String :=
  ⟨s.data.map lowerChar⟩

/-- Join of a string list with a separator, mirroring str.join. -/
def joinWith (sep : String) : List String → String
  | [] => ""
  | [x] => x
  | x :: y :: xs => x ++ sep ++ joinWith sep (y :: xs)

/-- Path components as pathlib sees them for relative paths: split on
the separator, dropping empty components and single-dot components. -/
def pathComponents (p : String) : List String :=
  ((splitChar '/' p.data).map (fun l => (⟨l⟩ : String))).filter
    (fun c => c ≠ "" && c ≠ ".")

/-- Final path component, mirroring pathlib Path(p).name for relative
paths. -/
def pathName (p : String) : String :=
  (pathComponents p).getLastD ""

/-- Extension of the final component including the dot, mirroring
pathlib Path(p).suffix: the part of the name from its last dot, provided
that dot is neither the first nor the last character of the name. -/
def pathSuffix (p : String) : String :=
  let n := pathName p
  let parts := splitChar '.' n.data
  match parts with
  | [] => ""
  | [_] => ""
  | _ =>
    if (parts.getLastD []).isEmpty then ""
    else if parts.length = 2 && (parts.headD []).isEmpty then ""
    else "." ++ (⟨parts.getLastD []⟩ : String)

/-- Name of the final component with its suffix removed, mirroring
pathlib Path(p).stem. -/
def pathStem (p : String) : String :=
  let n := pathName p
  ⟨n.data.take (n.data.length - (pathSuffix p).data.length)⟩

/-- Canonical string form of a relative path, mirroring str(Path(p)). -/
def strPath (p : String) : String :=
  joinWith "/" (pathComponents p)

/-- Predicate mirroring the comparison of str(Path(p).parent) with the
single dot: the path has no parent directory component. -/
def parentIsDot (p : String) : Bool :=
  (pathComponents p).length ≤ 1

/-- From agent/helpers.py is_test_file: the lowercased final component
contains the word test or the word spec. -/
def isTestFileName (f : String) : Bool :=
  let n := lowerStr (pathName f)
  strContains n "test" || strContains n "spec"

/-! ## Data model (agent/sdt_types.py)

The test_results / lint_results fields are Python dicts; the code inspects
their truthiness (empty dict is falsy) and reads keys with .get.  Every
assignment in the repository writes either None, the empty dict, or a dict
with both keys, so a dict is modelled as either the empty dict or a record
of both keys; a missing or None tests_passed value is the none case of the
inner Option. -/

/-- Model of the test_results dict: Python None is represented by an
outer Option at the use site; emptyDict is the falsy empty dict; mk is a
nonempty dict whose tests_passed value is none when the key is absent or
maps to None. -/
inductive TRDict where
  | emptyDict : TRDict
  | mk (testOutputs : List (String × String)) (testsPassed : Option Bool) : TRDict
deriving DecidableEq, Repr

/-- Python truthiness of the test_results dict. -/
def TRDict.truthy : TRDict → Bool
  | .emptyDict => false
  | .mk _ _ => true

/-- Truthiness of dict.get on the tests_passed key: a missing key or a
None value is falsy. -/
def TRDict.getTestsPassed : TRDict → Bool
  | .emptyDict => false
  | .mk _ tp => tp.getD false

/-- Model of the lint_results dict, shaped like TRDict. -/
inductive LintDict where
  | emptyDict : LintDict
  | mk (lintOutputs : List (String × String)) (lintPassed : Option Bool) : LintDict
deriving DecidableEq, Repr

/-- Model of the plan dict: the code reads the three file lists with
.get and a [] default, so missing keys are modelled as empty lists. -/
structure Plan where
  relevantFiles : List String := []
  sourceFiles : List String := []
  testFiles : List String := []
deriving DecidableEq, Repr

instance : Inhabited Plan := ⟨{}⟩

/-- Model of the code_changes dict; each field is an optional key. -/
structure CodeChanges where
  createdFile : Option String := none
  updatedFiles : Option (List String) := none
  commitMessage : Option String := none
deriving DecidableEq, Repr

/-- Model of WorkflowState from agent/sdt_types.py.  project_context is
carried opaquely as the repository link only; the nodes modelled here
read it only to locate the working copy, which the embedding keeps
implicit in the environment parameters. -/
structure WorkflowState where
  githubIssue : String := ""
  plan : Option Plan := none
  codeChanges : Option CodeChanges := none
  testResults : Option TRDict := none
  lintResults : Option LintDict := none
  passed : Option Bool := none
  lastErrors : Option String := none
deriving DecidableEq, Repr

/-! ## The conditional transition (agent/main_agent.py, SDTAgent.should_retry) -/

/-- Possible values returned by should_retry: the two node names and the
langgraph END sentinel. -/
inductive Route where
  | mainCodeGeneration : Route
  | commitAndPr : Route
  | stop : Route
deriving DecidableEq, Repr

/-- Truthiness of the retry guard
`state.test_results and not state.test_results.get("tests_passed")`. -/
def trFailing (tr : Option TRDict) : Bool :=
  match tr with
  | none => false
  | some d => d.truthy && !d.getTestsPassed

/-- Truthiness of the commit guard
`state.test_results and state.test_results.get("tests_passed")`. -/
def trPassing (tr : Option TRDict) : Bool :=
  match tr with
  | none => false
  | some d => d.truthy && d.getTestsPassed

/-- Result of one evaluation of should_retry: the chosen edge, the
engine-owned retry counter after the call, and the (possibly mutated)
workflow state. -/
structure RetryResult where
  route : Route
  retryCount : Nat
  state : WorkflowState
deriving DecidableEq, Repr

/-- SDTAgent.should_retry.  retryCount and maxRetries live on the engine
object, not in the state record; both are threaded explicitly.  The
hasattr guards in the source are no-ops because both attributes are set
in the constructor. -/
def shouldRetry (retryCount maxRetries : Nat) (state : WorkflowState)
    (includeCommitAndPr : Bool) : RetryResult :=
  if trFailing state.testResults then
    if retryCount < maxRetries then
      ⟨.mainCodeGeneration, retryCount + 1, state⟩
    else
      ⟨.stop, retryCount, { state with lastErrors := none }⟩
  else
    let state := { state with lastErrors := none }
    if includeCommitAndPr then
      if trPassing state.testResults then ⟨.commitAndPr, retryCount, state⟩
      else ⟨.stop, retryCount, state⟩
    else
      ⟨.stop, retryCount, state⟩

/-- Routes and final retry counter of a sequence of consecutive
should_retry evaluations, one per test_and_lint execution, threading the
engine-owned counter exactly as the engine object does across a run. -/
def retryRoutes (retryCount : Nat) (sts : List WorkflowState)
    (includeCommitAndPr : Bool) : List Route × Nat :=
  match sts with
  | [] => ([], retryCount)
  | st :: rest =>
    let r := shouldRetry retryCount 3 st includeCommitAndPr
    let t := retryRoutes r.retryCount rest includeCommitAndPr
    (r.route :: t.1, t.2)

/-! ## Test-and-lint phase (agent/nodes/test_and_lint_node.py)

The external process runner and the on-disk working copy are environment
parameters.  A process run is modelled as total (subprocess.run with
shell=True reports failures through the exit code; the except arms of
the source are not reachable in this model).  The self-healing re-run on
a missing module is folded into the environment: runTest returns the
result of the final attempt.  The test-generation fallback is an opaque
call that may rewrite the state and the set of files on disk. -/

/-- Result of one external process invocation: exit code, stdout and
stderr. -/
structure ProcResult where
  exitCode : Int
  stdout : String
  stderr : String
deriving DecidableEq, Repr

/-- Environment of one test_and_lint execution. -/
structure TLEnv where
  isFile : String → Bool
  runTest : String → ProcResult
  runLint : String → ProcResult
  testGenerate : WorkflowState → WorkflowState × (String → Bool)

/-- Commands the phase hands to the process runner, recorded for the
frame properties. -/
inductive Cmd where
  | test (file : String) : Cmd
  | lint (file : String) : Cmd
deriving DecidableEq, Repr

/-- Formatted output block stored per file:
[Exit code: rc] then stdout and stderr sections. -/
def fmtProcOutput (r : ProcResult) : String :=
  "[Exit code: " ++ toString r.exitCode ++ "]\nSTDOUT:\n" ++ r.stdout
    ++ "\nSTDERR:\n" ++ r.stderr

/-- Python dict assignment d[k] = v on a string-keyed dict modelled as an
association list: overwrite the existing key or append a new one. -/
def dictInsert (d : List (String × String)) (k v : String) :
    List (String × String) :=
  if d.any (fun p => p.1 = k) then
    d.map (fun p => if p.1 = k then (k, v) else p)
  else d ++ [(k, v)]

/-- File extensions dispatched to the npm test runner. -/
def jsExts : List String := [".js", ".jsx", ".ts", ".tsx"]

/-- One iteration of the test loop: files whose lowercased extension is
.py or a js-family extension are run (the others are skipped with no
output recorded); the formatted output is stored, and a nonzero exit
marks the overall test result failed and appends a failure block. -/
def testLoopStep (env : TLEnv)
    (acc : List (String × String) × Bool × List String × List Cmd)
    (f : String) : List (String × String) × Bool × List String × List Cmd :=
  let ext := lowerStr (pathSuffix f)
  if ext = ".py" || jsExts.contains ext then
    let r := env.runTest f
    let outs := dictInsert acc.1 f (fmtProcOutput r)
    let cmds := acc.2.2.2 ++ [Cmd.test f]
    if r.exitCode ≠ 0 then
      (outs, false,
        acc.2.2.1 ++ ["Test failure in " ++ f ++ ":\n" ++ r.stdout ++ "\n" ++ r.stderr],
        cmds)
    else
      (outs, acc.2.1, acc.2.2.1, cmds)
  else acc

/-- The test loop over the existing test files: outputs dict, overall
tests_passed flag, accumulated error blocks, executed commands. -/
def runTestLoop (env : TLEnv) (files : List String) :
    List (String × String) × Bool × List String × List Cmd :=
  files.foldl (testLoopStep env) ([], true, [], [])

/-- One iteration of the lint loop: relevant files ending in .py whose
stem does not contain the word test are linted; a nonzero exit marks
lint failed and appends an error entry. -/
def lintLoopStep (env : TLEnv)
    (acc : List (String × String) × Bool × List String × List Cmd)
    (f : String) : List (String × String) × Bool × List String × List Cmd :=
  if strEndsWith f ".py" && !strContains (lowerStr (pathStem f)) "test" then
    let r := env.runLint f
    let outs := dictInsert acc.1 f (fmtProcOutput r)
    let cmds := acc.2.2.2 ++ [Cmd.lint f]
    if r.exitCode ≠ 0 then
      (outs, false,
        acc.2.2.1 ++ ["Lint failure in " ++ f ++ ": Exit code " ++ toString r.exitCode],
        cmds)
    else
      (outs, acc.2.1, acc.2.2.1, cmds)
  else acc

/-- The lint loop over the relevant files. -/
def runLintLoop (env : TLEnv) (files : List String) :
    List (String × String) × Bool × List String × List Cmd :=
  files.foldl (lintLoopStep env) ([], true, [], [])

/-- Resolution of the test-file set with its three fallbacks: the plan
test_files filtered to existing files; if empty, the relevant files that
look like tests, filtered to existing; if still empty, the
test-generation call followed by a re-read of the plan test_files
filtered against the possibly changed disk.  Returns the possibly
rewritten state and the surviving file list. -/
def tlResolveTestFiles (env : TLEnv) (state : WorkflowState) :
    WorkflowState × List String :=
  let plan := state.plan.getD {}
  let testFiles := plan.testFiles
  let tfe0 := testFiles.filter env.isFile
  let tfe1 :=
    if tfe0.isEmpty then
      (plan.relevantFiles.filter isTestFileName).filter env.isFile
    else tfe0
  if tfe1.isEmpty then
    let g := env.testGenerate state
    let plan2 := g.1.plan.getD {}
    (g.1, plan2.testFiles.filter g.2)
  else (state, tfe1)

/-- TestAndLintNode.run.  Returns the resulting state together with the
list of test and lint commands handed to the process runner, in
execution order. -/
def testAndLint (env : TLEnv) (state : WorkflowState) :
    WorkflowState × List Cmd :=
  let plan := state.plan.getD {}
  let relevantFiles := plan.relevantFiles
  if relevantFiles.isEmpty then
    ({ state with testResults := some .emptyDict,
                  lintResults := some .emptyDict,
                  passed := none }, [])
  else
    let res := tlResolveTestFiles env state
    let state := res.1
    let testFilesExist := res.2
    if testFilesExist.length = 0 then
      ({ state with testResults := some (.mk [] (some true)),
                    lintResults := some (.mk [] (some true)) }, [])
    else
      let t := runTestLoop env testFilesExist
      let l := runLintLoop env relevantFiles
      let testOutputs := t.1
      let allTestsPassed := t.2.1
      let lintOutputs := l.1
      let allLintPassed := l.2.1
      let errorAccum := t.2.2.1 ++ l.2.2.1
      let cmds := t.2.2.2 ++ l.2.2.2
      if (testOutputs.map Prod.snd).any
          (fun v => strContains (lowerStr v) "no tests ran") then
        ({ state with testResults := some (.mk testOutputs (some true)),
                      lintResults := some (.mk lintOutputs (some allLintPassed)),
                      passed := some true }, cmds)
      else
        ({ state with testResults := some (.mk testOutputs (some allTestsPassed)),
                      lintResults := some (.mk lintOutputs (some allLintPassed)),
                      passed := some (allTestsPassed && allLintPassed),
                      lastErrors :=
                        if errorAccum.isEmpty then none
                        else some (joinWith "\n\n" errorAccum) }, cmds)

/-! ## Commit phase (agent/nodes/commit_and_pr_node.py)

The GitHub handle acquisition and the remote write sequence are opaque;
the model counts the three remote write operations the phase can issue:
create_git_tree, create_git_commit and the ref edit.  Reading a changed
file can fail (the file is then skipped).  The commit-message oracle is
an opaque function of the state. -/

/-- Environment of one commit_and_pr execution. -/
structure CommitEnv where
  readFile : String → Option String
  messageOracle : WorkflowState → String

/-- Outcome of the commit phase: the resulting state and how many
create-tree, create-commit and ref-update remote calls were issued. -/
structure CommitOutcome where
  state : WorkflowState
  treeCalls : Nat
  commitCalls : Nat
  refUpdateCalls : Nat
deriving DecidableEq, Repr

/-- Changed-file set assembled from code_changes: the created file if
present, then the updated files, deduplicated as list(set(...)); only
membership and emptiness of the result are relied upon, so the set is
modelled with first-appearance order. -/
def changedFilesOf (cc : CodeChanges) : List String :=
  let base := (match cc.createdFile with
    | some f => [f]
    | none => []) ++ cc.updatedFiles.getD []
  base.foldl (fun acc f => if f ∈ acc then acc else acc ++ [f]) []

/-- Path sent to the remote tree: backslashes replaced and leading
slashes stripped. -/
def commitRelPath (p : String) : String :=
  ⟨(p.data.map (fun c => if c = '\\' then '/' else c)).dropWhile (fun c => c = '/')⟩

/-- The tree elements the phase builds: every changed file whose content
is readable, with its normalized path; unreadable files are skipped. -/
def commitFilesOf (env : CommitEnv) (cc : CodeChanges) :
    List (String × String) :=
  (changedFilesOf cc).filterMap
    (fun f => (env.readFile f).map (fun data => (commitRelPath f, data)))

/-- CommitAndPRNode.run.  The none result models the AttributeError the
source raises when the gate is truthy but code_changes is None.  When
the gate is falsy the phase only logs and returns the state unchanged
with no remote call. -/
def commitAndPR (env : CommitEnv) (state : WorkflowState) :
    Option CommitOutcome :=
  if trPassing state.testResults then
    match state.codeChanges with
    | none => none
    | some cc =>
      let cc :=
        if cc.commitMessage.getD "" = "" then
          { cc with commitMessage := some (env.messageOracle state) }
        else cc
      let state := { state with codeChanges := some cc }
      if (commitFilesOf env cc).isEmpty then
        some ⟨state, 0, 0, 0⟩
      else
        some ⟨state, 1, 1, 1⟩
  else
    some ⟨state, 0, 0, 0⟩

/-! ## Generation phases (agent/nodes/code_generation_node.py and
test_generation_node.py): updated_files accumulation

Both nodes end with the same accumulation: create the dict or the key if
missing, then append every target path not already present. -/

/-- The per-file accumulation loop: append each target not already in
the list, preserving the order of first appearance. -/
def updateFilesAcc (cur : List String) (targets : List String) : List String :=
  targets.foldl (fun acc f => if f ∈ acc then acc else acc ++ [f]) cur

/-- The full accumulation block of a generation node, covering the
None-dict and missing-key initializations. -/
def ccAppendFiles (cc : Option CodeChanges) (targets : List String) :
    CodeChanges :=
  let cc := cc.getD { updatedFiles := some [] }
  { cc with updatedFiles := some (updateFilesAcc (cc.updatedFiles.getD []) targets) }

/-- CodeGenerationNode.run: on an empty issue text the node returns the
state unchanged; otherwise the on-disk writes are external effects and
the state update is the updated_files accumulation over the plan
source_files. -/
def codeGenerationNode (state : WorkflowState) : WorkflowState :=
  if state.githubIssue = "" then state
  else
    let sourceFiles := (state.plan.getD {}).sourceFiles
    { state with codeChanges := some (ccAppendFiles state.codeChanges sourceFiles) }

/-- Updated-files list after a sequence of generation executions within
one run (the run starts with code_changes = None, hence with an empty
list). -/
def updatedFilesAfter (executions : List (List String)) : List String :=
  executions.foldl updateFilesAcc []

/-! ## Path normalizer (agent/helpers.py get_test_dir and the
normalization loops of planning_node.py and test_generation_node.py)

The filesystem state relevant to get_test_dir is whether the entries
tests and test of the working copy exist and whether they are
directories. -/

/-- Kind of a directory entry. -/
inductive FsEntry where
  | absent : FsEntry
  | file : FsEntry
  | dir : FsEntry
deriving DecidableEq, Repr

/-- Filesystem state seen by get_test_dir. -/
structure TestDirFs where
  tests : FsEntry
  test : FsEntry
deriving DecidableEq, Repr

/-- get_test_dir from agent/helpers.py: tests if it exists as a
directory, else test if it exists as a directory, else create tests.
The none result models the FileExistsError mkdir raises when tests
exists as a non-directory. -/
def getTestDir (fs : TestDirFs) : Option (String × TestDirFs) :=
  if fs.tests = .dir then some ("tests", fs)
  else if fs.test = .dir then some ("test", fs)
  else if fs.tests = .file then none
  else some ("tests", { fs with tests := .dir })

/-- The normalization step applied to each planned test-file path.  A
path is represented by its pathlib parts (the component list, with
empty and single-dot components already dropped, as pathlib does).  The
parent of a path is the single dot exactly when the path has at most
one part; such a path is homed under the canonical test directory by
prepending the resolved directory to its name; any other path is kept
unchanged (pathlib parts are already in canonical string form). -/
def normalizeTestPath (fs : TestDirFs) (p : List String) :
    Option (List String × TestDirFs) :=
  if p.length ≤ 1 then
    match getTestDir fs with
    | none => none
    | some td => some (td.1 :: p, td.2)
  else some (p, fs)

/-! ## The workflow engine (agent/main_agent.py, run_workflow)

Phases execute in the fixed order issue_analysis, project_understanding,
planning, main_code_generation, test_and_lint; the single conditional
edge leaves test_and_lint through should_retry.  The clone node never
writes the state; the retrieve node rewrites github_issue only; the
planning node writes plan only; both are abstracted by environment
functions of the corresponding shape.  The router runs immediately after
the test_and_lint node, so one engine step at that phase is the node
followed by the router. -/

/-- Engine phases plus the two terminal situations: stopped (END or
finish point reached) and aborted (an exception escaped a node). -/
inductive Phase where
  | issueAnalysis : Phase
  | projectUnderstanding : Phase
  | planning : Phase
  | mainCodeGeneration : Phase
  | testAndLintPhase : Phase
  | commitAndPrPhase : Phase
  | stopped : Phase
  | aborted : Phase
deriving DecidableEq, Repr

/-- Per-run environment of the engine: the issue fetch, the planning
classification, one test-and-lint environment per execution of that
phase, and the commit environment. -/
structure EngineEnv where
  retrieveIssue : String → String
  classify : WorkflowState → Plan
  tlEnvAt : Nat → TLEnv
  commitEnv : CommitEnv

/-- State of the engine between steps: the current phase, the
engine-owned retry counter, the workflow state, and how many times the
test_and_lint phase has executed. -/
structure EngineState where
  phase : Phase
  retryCount : Nat
  w : WorkflowState
  iter : Nat
deriving Repr

/-- RetrieveIssueDetailsNode.run: only github_issue is rewritten. -/
def retrieveIssueNode (fetch : String → String) (s : WorkflowState) :
    WorkflowState :=
  { s with githubIssue := fetch s.githubIssue }

/-- PlanningNode.run: only plan is rewritten, with the classification
and normalization outcome abstracted into the environment function. -/
def planningNode (classify : WorkflowState → Plan) (s : WorkflowState) :
    WorkflowState :=
  { s with plan := some (classify s) }

/-- One step of the compiled graph. -/
def engineStep (env : EngineEnv) (includeCommitAndPr : Bool)
    (es : EngineState) : EngineState :=
  match es.phase with
  | .issueAnalysis =>
    { es with phase := .projectUnderstanding }
  | .projectUnderstanding =>
    { es with phase := .planning, w := retrieveIssueNode env.retrieveIssue es.w }
  | .planning =>
    { es with phase := .mainCodeGeneration, w := planningNode env.classify es.w }
  | .mainCodeGeneration =>
    { es with phase := .testAndLintPhase, w := codeGenerationNode es.w }
  | .testAndLintPhase =>
    let t := testAndLint (env.tlEnvAt es.iter) es.w
    let r := shouldRetry es.retryCount 3 t.1 includeCommitAndPr
    let next :=
      match r.route with
      | .mainCodeGeneration => Phase.mainCodeGeneration
      | .commitAndPr => Phase.commitAndPrPhase
      | .stop => Phase.stopped
    ⟨next, r.retryCount, r.state, es.iter + 1⟩
  | .commitAndPrPhase =>
    match commitAndPR env.commitEnv es.w with
    | some o => { es with phase := .stopped, w := o.state }
    | none => { es with phase := .aborted }
  | .stopped => es
  | .aborted => es

/-- Engine state after n steps of a run over the given initial workflow
state. -/
def engineRun (env : EngineEnv) (includeCommitAndPr : Bool)
    (w0 : WorkflowState) : Nat → EngineState
  | 0 => ⟨.issueAnalysis, 0, w0, 0⟩
  | n + 1 => engineStep env includeCommitAndPr (engineRun env includeCommitAndPr w0 n)

/-! ## Concrete fixtures used by witnesses and counterexamples -/

/-- Test-and-lint environment over an empty working copy: no file
exists, every process exits cleanly, test generation changes nothing. -/
def envTriv : TLEnv :=
  ⟨fun _ => false, fun _ => ⟨0, "", ""⟩, fun _ => ⟨0, "", ""⟩,
   fun s => (s, fun _ => false)⟩

/-- State whose test_results is a nonempty dict with a falsy
tests_passed value. -/
def failSt : WorkflowState :=
  { testResults := some (.mk [("tests/test_a.py", "out")] (some false)) }

/-- State whose test results report a failure with lint results clean. -/
def stPassTests : WorkflowState :=
  { testResults := some (.mk [("tests/test_a.py", "ok")] (some true)),
    lastErrors := some "stale" }

/-! ## C6 -/

/-- C6: for every state in which test_results.tests_passed is falsy, the
commit phase issues zero create-tree, create-commit and ref-update
remote calls and returns the state passed through unchanged. -/
theorem c6_commit_noop_when_tests_failing (env : CommitEnv)
    (s : WorkflowState) (d : TRDict)
    (h1 : s.testResults = some d) (h2 : d.getTestsPassed = false) :
    commitAndPR env s = some ⟨s, 0, 0, 0⟩ := by
  simp [commitAndPR, trPassing, h1, h2]

/-- Witness for C6 at a concrete failing state. -/
theorem c6_commit_noop_when_tests_failing_witness :
    failSt.testResults = some (.mk [("tests/test_a.py", "out")] (some false))
    ∧ commitAndPR ⟨fun _ => none, fun _ => ""⟩ failSt
        = some ⟨failSt, 0, 0, 0⟩ :=
  ⟨rfl, c6_commit_noop_when_tests_failing _ failSt _ rfl rfl⟩

/-! ## C10 -/

/-- C10: if the plan is absent or its relevant_files list is empty, the
test-and-lint phase writes empty test_results and lint_results dicts
and a None passed, runs no test or lint command, and the subsequent
conditional transition returns STOP (the empty dict is falsy) for
either configuration of the commit phase, so the run ends without a
commit. -/
theorem c10_empty_plan_short_circuit (env : TLEnv) (s : WorkflowState)
    (inc : Bool) (rc : Nat)
    (h : (s.plan.getD {}).relevantFiles = []) :
    testAndLint env s
      = ({ s with testResults := some .emptyDict,
                  lintResults := some .emptyDict, passed := none }, [])
    ∧ (shouldRetry rc 3 (testAndLint env s).1 inc).route = .stop := by
  have h1 : testAndLint env s
      = ({ s with testResults := some .emptyDict,
                  lintResults := some .emptyDict, passed := none }, []) := by
    simp [testAndLint, h]
  refine ⟨h1, ?_⟩
  rw [h1]
  cases inc <;>
    simp [shouldRetry, trFailing, trPassing, TRDict.truthy, TRDict.getTestsPassed]

/-- Witness for C10 at a concrete plan-less state. -/
theorem c10_empty_plan_short_circuit_witness :
    (({} : WorkflowState).plan.getD {}).relevantFiles = []
    ∧ testAndLint envTriv {}
        = ({ testResults := some .emptyDict,
             lintResults := some .emptyDict, passed := none }, [])
    ∧ (shouldRetry 0 3 (testAndLint envTriv {}).1 true).route = .stop :=
  ⟨rfl, (c10_empty_plan_short_circuit envTriv {} true 0 rfl).1,
    (c10_empty_plan_short_circuit envTriv {} true 0 rfl).2⟩

/-! ## C5 -/

/-- State with a nonempty test_results dict in which the tests_passed
key is absent (or maps to None). -/
def stAbsentTP : WorkflowState :=
  { testResults := some (.mk [("a.py", "out")] none),
    lastErrors := some "e" }

/-- C5 counterexample: with tests_passed absent from a nonempty
test_results dict, the transition takes the retry branch and returns
main_code_generation with last_errors kept, not commit_and_pr; the
claim says this case never returns main_code_generation. -/
theorem c5_counterexample :
    (shouldRetry 0 3 stAbsentTP true).route = .mainCodeGeneration
    ∧ (shouldRetry 0 3 stAbsentTP true).route ≠ .commitAndPr
    ∧ (shouldRetry 0 3 stAbsentTP true).state.lastErrors = some "e" := by
  decide

/-- C5 amended: if tests_passed is truthy the transition nulls
last_errors and returns commit_and_pr when the commit phase is enabled
and STOP otherwise; if test_results is None or the empty dict the
transition nulls last_errors and returns STOP even when the commit
phase is enabled; a nonempty dict whose tests_passed is absent or None
is treated as a failure and follows the retry branch. -/
theorem c5_amended (s : WorkflowState) (rc : Nat) (inc : Bool) :
    (trPassing s.testResults = true →
      shouldRetry rc 3 s inc
        = ⟨if inc then .commitAndPr else .stop, rc, { s with lastErrors := none }⟩)
    ∧ ((s.testResults = none ∨ s.testResults = some .emptyDict) →
      shouldRetry rc 3 s inc = ⟨.stop, rc, { s with lastErrors := none }⟩)
    ∧ (∀ outs, s.testResults = some (.mk outs none) →
        (rc < 3 → shouldRetry rc 3 s inc = ⟨.mainCodeGeneration, rc + 1, s⟩)
        ∧ (3 ≤ rc →
            shouldRetry rc 3 s inc = ⟨.stop, rc, { s with lastErrors := none }⟩)) := by
  have hupd : ({ s with lastErrors := none } : WorkflowState).testResults
      = s.testResults := rfl
  refine ⟨fun hp => ?_, fun he => ?_, fun outs ho => ⟨fun hlt => ?_, fun hge => ?_⟩⟩
  · have hf : trFailing s.testResults = false := by
      cases htr : s.testResults with
      | none => rfl
      | some d =>
        rw [htr] at hp
        simp only [trPassing, Bool.and_eq_true] at hp
        simp [trFailing, hp.1, hp.2]
    rw [shouldRetry, hf]
    cases inc <;> simp [trPassing, hupd, hp] <;> simp [trPassing] at hp <;> simp [hp]
  · have hf : trFailing s.testResults = false := by
      rcases he with he | he <;> simp [trFailing, he, TRDict.truthy]
    have hp2 : trPassing s.testResults = false := by
      rcases he with he | he <;> simp [trPassing, he, TRDict.getTestsPassed]
    rw [shouldRetry, hf]
    cases inc <;> simp [hupd, hp2]
  · have hf : trFailing s.testResults = true := by
      simp [trFailing, ho, TRDict.truthy, TRDict.getTestsPassed]
    rw [shouldRetry, hf]
    simp [hlt]
  · have hf : trFailing s.testResults = true := by
      simp [trFailing, ho, TRDict.truthy, TRDict.getTestsPassed]
    rw [shouldRetry, hf]
    simp [Nat.not_lt.mpr hge]

/-- Witness for the amended C5 at concrete states: a passing dict with
the commit phase enabled routes to commit_and_pr, and an empty dict
routes to STOP. -/
theorem c5_amended_witness :
    trPassing stPassTests.testResults = true
    ∧ shouldRetry 0 3 stPassTests true
        = ⟨.commitAndPr, 0, { stPassTests with lastErrors := none }⟩
    ∧ shouldRetry 0 3 { testResults := some .emptyDict } true
        = ⟨.stop, 0, { testResults := some .emptyDict, lastErrors := none }⟩ :=
  ⟨by decide, (c5_amended stPassTests 0 true).1 (by decide),
    (c5_amended { testResults := some .emptyDict } 0 true).2.1 (Or.inr rfl)⟩

/-! ## C4 -/

/-- State with one lintable relevant source file and no planned test
file. -/
def stC4 : WorkflowState := { plan := some { relevantFiles := ["a.py"] } }

/-- C4 counterexample: with one relevant lintable source file and no
test file on disk after all three fallbacks, the phase deems the tests
passed but returns before the lint loop: the command trace is empty (in
particular no lint command over the relevant file a.py is run), and the
lint outputs are empty, refuting the claim that lint still runs. -/
theorem c4_counterexample :
    (testAndLint envTriv stC4).2 = []
    ∧ Cmd.lint "a.py" ∉ (testAndLint envTriv stC4).2
    ∧ (testAndLint envTriv stC4).1.testResults = some (.mk [] (some true))
    ∧ (testAndLint envTriv stC4).1.lintResults = some (.mk [] (some true)) := by
  decide

/-- C4 amended: for every state in which, after all three test-file
fallbacks, no test file exists on disk, the test-and-lint phase sets
tests_passed to true and lint_passed to true with empty output dicts
and returns immediately, running no test or lint command; the passed
and last_errors fields are left unchanged. -/
theorem c4_amended (env : TLEnv) (s : WorkflowState)
    (hrel : (s.plan.getD {}).relevantFiles ≠ [])
    (hempty : (tlResolveTestFiles env s).2 = []) :
    testAndLint env s
      = ({ (tlResolveTestFiles env s).1 with
            testResults := some (.mk [] (some true)),
            lintResults := some (.mk [] (some true)) }, []) := by
  rw [testAndLint]
  simp [List.isEmpty_iff, hrel, hempty]

/-- Witness for the amended C4 at a concrete state. -/
theorem c4_amended_witness :
    stC4.plan.getD {} = { relevantFiles := ["a.py"] }
    ∧ (tlResolveTestFiles envTriv stC4).2 = []
    ∧ testAndLint envTriv stC4
        = ({ (tlResolveTestFiles envTriv stC4).1 with
              testResults := some (.mk [] (some true)),
              lintResults := some (.mk [] (some true)) }, []) :=
  ⟨rfl, by decide, c4_amended envTriv stC4 (by decide) (by decide)⟩

/-! ## C2 -/

/-- Code changes carrying one updated file and a cached commit
message. -/
def ccC2 : CodeChanges :=
  { updatedFiles := some ["a.py"], commitMessage := some "msg" }

/-- State produced by a test-and-lint execution in which the tests
passed but lint failed: the overall gate is false while tests_passed is
true. -/
def stC2 : WorkflowState :=
  { plan := some { relevantFiles := ["a.py"], testFiles := ["tests/test_a.py"] },
    codeChanges := some ccC2,
    testResults := some (.mk [("tests/test_a.py", "ok")] (some true)),
    lintResults := some (.mk [("a.py", "bad")] (some false)),
    passed := some false }

/-- Commit environment in which the changed file a.py is readable. -/
def cenvC2 : CommitEnv :=
  ⟨fun f => if f = "a.py" then some "code" else none, fun _ => "generated"⟩

/-- C2 counterexample: with lint failed but tests passed, the engine
does transition to commit_and_pr and passed is false, yet the commit
phase is not a no-op: gated on tests_passed alone, it creates a tree, a
commit and a ref update for the readable changed file. -/
theorem c2_counterexample :
    (shouldRetry 0 3 stC2 true).route = .commitAndPr
    ∧ stC2.passed = some false
    ∧ (commitAndPR cenvC2 stC2).map CommitOutcome.treeCalls = some 1
    ∧ (commitAndPR cenvC2 stC2).map CommitOutcome.commitCalls = some 1
    ∧ (commitAndPR cenvC2 stC2).map CommitOutcome.refUpdateCalls = some 1 := by
  decide

/-- C2 amended: when the test-and-lint phase reports lint failed but
tests passed, the engine transitions to commit_and_pr (no retry) and
passed is false, but the commit phase is not a no-op: its gate reads
tests_passed only, and with a cached commit message and at least one
readable changed file it performs the tree, commit and ref-update
remote calls. -/
theorem c2_amended (env : CommitEnv) (s : WorkflowState) (rc : Nat)
    (outs : List (String × String)) (cc : CodeChanges)
    (h1 : s.testResults = some (.mk outs (some true)))
    (h2 : s.passed = some false)
    (h3 : s.codeChanges = some cc)
    (h4 : cc.commitMessage.getD "" ≠ "")
    (h5 : commitFilesOf env cc ≠ []) :
    (shouldRetry rc 3 s true).route = .commitAndPr
    ∧ commitAndPR env s = some ⟨{ s with codeChanges := some cc }, 1, 1, 1⟩ := by
  have hf : trFailing s.testResults = false := by
    simp [trFailing, h1, TRDict.truthy, TRDict.getTestsPassed]
  have hp : trPassing s.testResults = true := by
    simp [trPassing, h1, TRDict.truthy, TRDict.getTestsPassed]
  constructor
  · rw [shouldRetry, hf]
    simp [hp]
  · rw [commitAndPR, hp]
    simp [h3, h4, List.isEmpty_iff, h5]

/-- Witness for the amended C2 at the concrete lint-failed state. -/
theorem c2_amended_witness :
    stC2.passed = some false
    ∧ (shouldRetry 0 3 stC2 true).route = .commitAndPr
    ∧ commitAndPR cenvC2 stC2
        = some ⟨{ stC2 with codeChanges := some ccC2 }, 1, 1, 1⟩ :=
  ⟨rfl,
    (c2_amended cenvC2 stC2 0 [("tests/test_a.py", "ok")] ccC2 rfl rfl rfl
      (by decide) (by decide)).1,
    (c2_amended cenvC2 stC2 0 [("tests/test_a.py", "ok")] ccC2 rfl rfl rfl
      (by decide) (by decide)).2⟩

/-! ## C3 -/

/-- Environment in which the planned test file exists, its test run
exits zero while reporting that no tests ran, and lint fails. -/
def envC3 : TLEnv :=
  ⟨fun f => f = "tests/t_x.py",
   fun _ => ⟨0, "no tests ran in 0.01s", ""⟩,
   fun _ => ⟨1, "E501", ""⟩,
   fun s => (s, fun _ => false)⟩

/-- State with one lintable relevant source file and one planned test
file. -/
def stC3 : WorkflowState :=
  { plan := some { relevantFiles := ["a.py"], testFiles := ["tests/t_x.py"] } }

/-- C3 counterexample: in the branch taken when a captured test output
indicates zero tests ran, the phase sets passed to true even though the
lint pass computed by the same execution is false, so passed differs
from the conjunction tests_passed AND lint_passed. -/
theorem c3_counterexample :
    (testAndLint envC3 stC3).1.passed = some true
    ∧ (testAndLint envC3 stC3).1.testResults
        = some (.mk [("tests/t_x.py",
            "[Exit code: 0]\nSTDOUT:\nno tests ran in 0.01s\nSTDERR:\n")] (some true))
    ∧ (testAndLint envC3 stC3).1.lintResults
        = some (.mk [("a.py", "[Exit code: 1]\nSTDOUT:\nE501\nSTDERR:\n")] (some false))
    ∧ some true ≠ some (true && false) := by
  decide

/-- C3 amended: when the phase runs at least one test file and no
captured output contains the zero-tests phrase, passed equals the
conjunction of the computed tests_passed and lint_passed; in the
zero-tests branch passed is set to true regardless of the lint outcome;
the no-test-file and empty-plan branches do not write the conjunction
(they leave passed unchanged, resp. set it to None). -/
theorem c3_amended (env : TLEnv) (s : WorkflowState)
    (hrel : (s.plan.getD {}).relevantFiles ≠ [])
    (hex : (tlResolveTestFiles env s).2 ≠ []) :
    (((runTestLoop env (tlResolveTestFiles env s).2).1.map Prod.snd).any
        (fun v => strContains (lowerStr v) "no tests ran") = false →
      (testAndLint env s).1.passed
        = some ((runTestLoop env (tlResolveTestFiles env s).2).2.1
            && (runLintLoop env (s.plan.getD {}).relevantFiles).2.1)
      ∧ (testAndLint env s).1.testResults
        = some (.mk (runTestLoop env (tlResolveTestFiles env s).2).1
            (some (runTestLoop env (tlResolveTestFiles env s).2).2.1))
      ∧ (testAndLint env s).1.lintResults
        = some (.mk (runLintLoop env (s.plan.getD {}).relevantFiles).1
            (some (runLintLoop env (s.plan.getD {}).relevantFiles).2.1)))
    ∧ (((runTestLoop env (tlResolveTestFiles env s).2).1.map Prod.snd).any
        (fun v => strContains (lowerStr v) "no tests ran") = true →
      (testAndLint env s).1.passed = some true
      ∧ (testAndLint env s).1.testResults
        = some (.mk (runTestLoop env (tlResolveTestFiles env s).2).1 (some true))) := by
  constructor <;> intro hm <;>
    rw [testAndLint] <;>
    simp [List.isEmpty_iff, List.length_eq_zero, hrel, hex, hm]

/-- Environment for the amended C3 witness: the planned test file
exists, tests and lint both exit zero. -/
def envC3w : TLEnv :=
  ⟨fun f => f = "tests/test_a.py",
   fun _ => ⟨0, "1 passed", ""⟩,
   fun _ => ⟨0, "", ""⟩,
   fun s => (s, fun _ => false)⟩

/-- State for the amended C3 witness. -/
def stC3w : WorkflowState :=
  { plan := some { relevantFiles := ["a.py"], testFiles := ["tests/test_a.py"] } }

/-- Witness for the amended C3 at a concrete clean execution. -/
theorem c3_amended_witness :
    (testAndLint envC3w stC3w).1.passed
      = some ((runTestLoop envC3w (tlResolveTestFiles envC3w stC3w).2).2.1
          && (runLintLoop envC3w (stC3w.plan.getD {}).relevantFiles).2.1) :=
  ((c3_amended envC3w stC3w (by decide) (by decide)).1 (by decide)).1

/-! ## C8 -/

/-- Unfolding of the accumulation loop on a cons cell. -/
theorem updateFilesAcc_cons (cur : List String) (f : String) (ts : List String) :
    updateFilesAcc cur (f :: ts)
      = updateFilesAcc (if f ∈ cur then cur else cur ++ [f]) ts := rfl

/-- The accumulated list before an execution is a prefix of the list
after it: no element is lost and the order of earlier entries is kept. -/
theorem updateFilesAcc_isPre (cur ts : List String) :
    cur <+: updateFilesAcc cur ts := by
  induction ts generalizing cur with
  | nil => exact List.prefix_rfl
  | cons f ts ih =>
    rw [updateFilesAcc_cons]
    refine List.IsPrefix.trans ?_ (ih _)
    split
    · exact List.prefix_rfl
    · exact List.prefix_append cur [f]

/-- The accumulation loop preserves freedom from duplicates. -/
theorem updateFilesAcc_nodup (cur ts : List String) (h : cur.Nodup) :
    (updateFilesAcc cur ts).Nodup := by
  induction ts generalizing cur with
  | nil => exact h
  | cons f ts ih =>
    rw [updateFilesAcc_cons]
    apply ih
    split
    · exact h
    · next hf =>
      refine List.Nodup.append h (List.nodup_singleton f) ?_
      intro a ha hb
      rw [List.mem_singleton] at hb
      exact hf (hb ▸ ha)

/-- Previously accumulated entries stay in the list. -/
theorem updateFilesAcc_mem_left (cur ts : List String) (x : String)
    (h : x ∈ cur) : x ∈ updateFilesAcc cur ts :=
  (updateFilesAcc_isPre cur ts).subset h

/-- Every target path of an execution is in the accumulated list. -/
theorem updateFilesAcc_mem_right (cur ts : List String) (x : String)
    (h : x ∈ ts) : x ∈ updateFilesAcc cur ts := by
  induction ts generalizing cur with
  | nil => cases h
  | cons f ts ih =>
    rw [updateFilesAcc_cons]
    rcases List.mem_cons.mp h with rfl | h2
    · apply updateFilesAcc_mem_left
      split
      · assumption
      · simp
    · exact ih _ h2

/-- The accumulated list is a sublist of the previous list followed by
the targets: new entries appear in first-appearance order. -/
theorem updateFilesAcc_sublist (cur ts : List String) :
    updateFilesAcc cur ts <+ cur ++ ts := by
  induction ts generalizing cur with
  | nil => simp [updateFilesAcc]
  | cons f ts ih =>
    rw [updateFilesAcc_cons]
    refine (ih _).trans ?_
    split
    · exact (List.Sublist.refl cur).append (List.sublist_cons_self f ts)
    · rw [List.append_assoc]
      exact List.Sublist.refl _

/-- Prefix monotonicity of the whole-run fold. -/
theorem updatedFoldl_isPre (cur : List String) (execs : List (List String)) :
    cur <+: execs.foldl updateFilesAcc cur := by
  induction execs generalizing cur with
  | nil => exact List.prefix_rfl
  | cons ts execs ih =>
    exact (updateFilesAcc_isPre cur ts).trans (ih (updateFilesAcc cur ts))

/-- Duplicate freedom of the whole-run fold. -/
theorem updatedFoldl_nodup (cur : List String) (execs : List (List String))
    (h : cur.Nodup) : (execs.foldl updateFilesAcc cur).Nodup := by
  induction execs generalizing cur with
  | nil => exact h
  | cons ts execs ih => exact ih _ (updateFilesAcc_nodup cur ts h)

/-- Sublist bound of the whole-run fold. -/
theorem updatedFoldl_sublist (cur : List String) (execs : List (List String)) :
    execs.foldl updateFilesAcc cur <+ cur ++ execs.flatten := by
  induction execs generalizing cur with
  | nil => simp
  | cons ts execs ih =>
    refine (ih (updateFilesAcc cur ts)).trans ?_
    rw [List.flatten_cons, ← List.append_assoc]
    exact (updateFilesAcc_sublist cur ts).append (List.Sublist.refl execs.flatten)

/-- Membership of every target of every execution in the fold. -/
theorem updatedFoldl_mem (cur : List String) (execs : List (List String))
    (ts : List String) (x : String) (h1 : ts ∈ execs) (h2 : x ∈ ts) :
    x ∈ execs.foldl updateFilesAcc cur := by
  induction execs generalizing cur with
  | nil => cases h1
  | cons us execs ih =>
    rcases List.mem_cons.mp h1 with rfl | h3
    · exact (updatedFoldl_isPre (updateFilesAcc cur ts) execs).subset
        (updateFilesAcc_mem_right cur ts x h2)
    · exact ih _ h3


/-- C8: across every sequence of generation-phase executions within one
run, the updated_files list never loses an element (each intermediate
list is a prefix of the final one), contains no duplicate path, keeps
the order of first appearance (the final list is a sublist of the
concatenated targets), and contains every target path of every
execution; and the per-node accumulation block computes exactly this
loop over the current list. -/
theorem c8_updated_files_invariant (execs : List (List String)) :
    (updatedFilesAfter execs).Nodup
    ∧ (∀ k : Nat, updatedFilesAfter (execs.take k) <+: updatedFilesAfter execs)
    ∧ (∀ ts ∈ execs, ∀ f ∈ ts, f ∈ updatedFilesAfter execs)
    ∧ updatedFilesAfter execs <+ execs.flatten
    ∧ (∀ (cc : Option CodeChanges) (ts : List String),
        (ccAppendFiles cc ts).updatedFiles
          = some (updateFilesAcc
              ((cc.getD { updatedFiles := some [] }).updatedFiles.getD []) ts)) := by
  refine ⟨updatedFoldl_nodup [] execs List.nodup_nil, fun k => ?_, ?_, ?_, ?_⟩
  · have he : updatedFilesAfter execs
        = (execs.drop k).foldl updateFilesAcc (updatedFilesAfter (execs.take k)) := by
      rw [updatedFilesAfter, updatedFilesAfter, ← List.foldl_append,
        List.take_append_drop]
    rw [he]
    exact updatedFoldl_isPre _ _
  · exact fun ts hts f hf => updatedFoldl_mem [] execs ts f hts hf
  · simpa using updatedFoldl_sublist [] execs
  · intro cc ts
    cases cc <;> rfl

/-- Witness for C8 at a concrete sequence of two executions with an
overlapping regenerated file. -/
theorem c8_updated_files_invariant_witness :
    (updatedFilesAfter [["a.py", "b.py"], ["a.py", "c.py"]]).Nodup
    ∧ updatedFilesAfter [["a.py", "b.py"], ["a.py", "c.py"]]
        = ["a.py", "b.py", "c.py"] :=
  ⟨(c8_updated_files_invariant [["a.py", "b.py"], ["a.py", "c.py"]]).1, by decide⟩

/-! ## C9 -/

/-- C9 counterexample: on a working copy where the entry test exists as
a file (not a directory) and tests is absent, get_test_dir does not
resolve to test/ as the claim states; it creates and returns tests/,
and a bare test path is homed under tests/. -/
theorem c9_counterexample :
    getTestDir ⟨.absent, .file⟩ = some ("tests", ⟨.dir, .file⟩)
    ∧ normalizeTestPath ⟨.absent, .file⟩ ["test_a.py"]
        = some (["tests", "test_a.py"], ⟨.dir, .file⟩)
    ∧ ("tests" : String) ≠ "test" := by
  decide

/-- C9 amended: normalization leaves any path with a directory
component unchanged and is idempotent on every nonempty path; a path
with no parent directory is relocated under the canonical test
directory, resolved as tests/ if it exists as a directory, else test/
if it exists as a directory, else a newly created tests/ (creation
applies when tests is absent). -/
theorem c9_normalize_idempotent (fs : TestDirFs) (p : List String) :
    (2 ≤ p.length → normalizeTestPath fs p = some (p, fs))
    ∧ (∀ q fs2, p ≠ [] → normalizeTestPath fs p = some (q, fs2) →
        normalizeTestPath fs2 q = some (q, fs2))
    ∧ (p.length ≤ 1 → fs.tests = .dir →
        normalizeTestPath fs p = some ("tests" :: p, fs))
    ∧ (p.length ≤ 1 → fs.tests ≠ .dir → fs.test = .dir →
        normalizeTestPath fs p = some ("test" :: p, fs))
    ∧ (p.length ≤ 1 → fs.tests = .absent → fs.test ≠ .dir →
        normalizeTestPath fs p = some ("tests" :: p, { fs with tests := .dir })) := by
  obtain ⟨ftests, ftest⟩ := fs
  refine ⟨fun h2 => ?_, fun q fs2 hne hq => ?_, fun h1 ht => ?_,
    fun h1 ht hd => ?_, fun h1 ht hd => ?_⟩
  · rw [normalizeTestPath]
    rw [if_neg (by omega)]
  · by_cases h1 : p.length ≤ 1
    · rw [normalizeTestPath, if_pos h1] at hq
      cases htd : getTestDir ⟨ftests, ftest⟩ with
      | none => rw [htd] at hq; cases hq
      | some td =>
        rw [htd] at hq
        injection hq with hq
        injection hq with hq1 hq2
        subst hq1; subst hq2
        rw [normalizeTestPath, if_neg]
        have : 1 ≤ p.length := List.length_pos.mpr hne
        simp only [List.length_cons]
        omega
    · rw [normalizeTestPath, if_neg h1] at hq
      injection hq with hq
      injection hq with hq1 hq2
      subst hq1; subst hq2
      rw [normalizeTestPath, if_neg h1]
  · rw [normalizeTestPath, if_pos h1, getTestDir, if_pos ht]
  · rw [normalizeTestPath, if_pos h1, getTestDir, if_neg ht, if_pos hd]
  · subst ht
    rw [normalizeTestPath, if_pos h1, getTestDir]
    rw [if_neg (by simp), if_neg hd, if_neg (by simp)]

/-- Witness for the amended C9 at a concrete bare path and a working
copy where tests/ exists as a directory. -/
theorem c9_normalize_idempotent_witness :
    normalizeTestPath ⟨.dir, .absent⟩ ["test_a.py"]
      = some (["tests", "test_a.py"], ⟨.dir, .absent⟩)
    ∧ normalizeTestPath ⟨.dir, .absent⟩ ["tests", "test_a.py"]
      = some (["tests", "test_a.py"], ⟨.dir, .absent⟩) :=
  ⟨(c9_normalize_idempotent ⟨.dir, .absent⟩ ["test_a.py"]).2.2.1 (by decide) rfl,
    (c9_normalize_idempotent ⟨.dir, .absent⟩ ["test_a.py"]).2.1
      ["tests", "test_a.py"] ⟨.dir, .absent⟩ (by decide)
      ((c9_normalize_idempotent ⟨.dir, .absent⟩ ["test_a.py"]).2.2.1 (by decide) rfl)⟩

/-! ## C1 -/

/-- Routes of all-stop tails: once the counter reached the budget every
further failing evaluation routes to STOP. -/
theorem mapStopAbove (s n : Nat) (hs : 3 ≤ s) :
    (List.range' s n).map
        (fun j => if j < 3 then Route.mainCodeGeneration else Route.stop)
      = List.replicate n Route.stop := by
  induction n generalizing s with
  | zero => rfl
  | succ m ih =>
    rw [List.range'_succ, List.map_cons, ih (s + 1) (by omega),
      if_neg (by omega), List.replicate_succ]

/-- Closed form of consecutive should_retry evaluations over failing
test results, for any starting counter not above the budget: the route
of the j-th evaluation is main_code_generation exactly while j is below
the budget, and the counter ends at the capped sum. -/
theorem retryRoutes_failing (sts : List WorkflowState) (inc : Bool) (rc : Nat)
    (hrc : rc ≤ 3) (h : ∀ st ∈ sts, trFailing st.testResults = true) :
    retryRoutes rc sts inc
      = ((List.range' rc sts.length).map
          (fun j => if j < 3 then Route.mainCodeGeneration else Route.stop),
         min (rc + sts.length) 3) := by
  induction sts generalizing rc with
  | nil =>
    simp [retryRoutes]
    omega
  | cons st rest ih =>
    have hst : trFailing st.testResults = true := h st (List.mem_cons_self st rest)
    have hrest : ∀ s ∈ rest, trFailing s.testResults = true :=
      fun s hs => h s (List.mem_cons_of_mem st hs)
    rw [retryRoutes, shouldRetry, hst]
    by_cases hlt : rc < 3
    · rw [if_pos rfl, if_pos hlt]
      rw [ih (rc + 1) (by omega) hrest]
      simp only [List.length_cons]
      rw [List.range'_succ, List.map_cons, if_pos hlt]
      refine Prod.ext rfl ?_
      simp only []
      omega
    · have h3 : rc = 3 := by omega
      subst h3
      rw [if_pos rfl, if_neg hlt]
      rw [ih 3 le_rfl hrest]
      simp only [List.length_cons]
      rw [List.range'_succ, List.map_cons, if_neg hlt]
      rw [mapStopAbove 3 rest.length le_rfl, mapStopAbove 4 rest.length (by omega)]
      refine Prod.ext rfl ?_
      simp only []
      omega

/-- Count of generation routes over the first N indices. -/
theorem countGenRange (N : Nat) :
    (((List.range N).map
        (fun k => if k < 3 then Route.mainCodeGeneration else Route.stop)).count
      Route.mainCodeGeneration) = min N 3 := by
  induction N with
  | zero => rfl
  | succ n ih =>
    rw [List.range_succ, List.map_append, List.count_append, ih]
    simp only [List.map_cons, List.map_nil]
    by_cases h : n < 3
    · rw [if_pos h]
      have h1 : List.count Route.mainCodeGeneration [Route.mainCodeGeneration] = 1 := by
        decide
      rw [h1]
      omega
    · rw [if_neg h]
      have h0 : List.count Route.mainCodeGeneration [Route.stop] = 0 := by decide
      rw [h0]
      omega

/-- C1: over any run, for every number N of consecutive test-and-lint
executions whose tests_passed is falsy, the conditional transition
returns main_code_generation exactly min(N, 3) times (the j-th falsy
evaluation routes to generation exactly while j is below the budget),
the engine-owned retry counter climbs to min(N, 3) and never exceeds
the budget, and once the budget is exhausted the next falsy result
routes to STOP. -/
theorem c1_retry_bound (sts : List WorkflowState) (inc : Bool)
    (h : ∀ st ∈ sts, trFailing st.testResults = true) :
    (retryRoutes 0 sts inc).1
      = (List.range sts.length).map
          (fun k => if k < 3 then Route.mainCodeGeneration else Route.stop)
    ∧ (retryRoutes 0 sts inc).1.count Route.mainCodeGeneration = min sts.length 3
    ∧ (retryRoutes 0 sts inc).2 = min sts.length 3
    ∧ (retryRoutes 0 sts inc).2 ≤ 3
    ∧ (∀ st2 : WorkflowState, trFailing st2.testResults = true → 3 ≤ sts.length →
        (shouldRetry (retryRoutes 0 sts inc).2 3 st2 inc).route = Route.stop) := by
  have hmain := retryRoutes_failing sts inc 0 (by omega) h
  have hfst : (retryRoutes 0 sts inc).1
      = (List.range sts.length).map
          (fun k => if k < 3 then Route.mainCodeGeneration else Route.stop) := by
    rw [hmain, List.range_eq_range']
  have hsnd : (retryRoutes 0 sts inc).2 = min sts.length 3 := by
    rw [hmain]
    simp only []
    omega
  refine ⟨hfst, ?_, hsnd, by omega, ?_⟩
  · rw [hfst, countGenRange]
  · intro st2 h2 hlen
    rw [hsnd, shouldRetry, h2]
    rw [if_pos rfl, if_neg (by omega)]

/-- Witness for C1 on five consecutive failing evaluations: three
generation routes, then STOP, with the counter capped at three. -/
theorem c1_retry_bound_witness :
    (∀ st ∈ List.replicate 5 failSt, trFailing st.testResults = true)
    ∧ (retryRoutes 0 (List.replicate 5 failSt) true).1
        = [Route.mainCodeGeneration, Route.mainCodeGeneration,
           Route.mainCodeGeneration, Route.stop, Route.stop]
    ∧ (retryRoutes 0 (List.replicate 5 failSt) true).2 = 3 :=
  ⟨by decide,
    by
      rw [(c1_retry_bound (List.replicate 5 failSt) true (by decide)).1]
      decide,
    by
      rw [(c1_retry_bound (List.replicate 5 failSt) true (by decide)).2.2.1]
      decide⟩

/-! ## C7 -/

/-- The code generation node leaves last_errors unchanged. -/
theorem codeGenerationNode_lastErrors (s : WorkflowState) :
    (codeGenerationNode s).lastErrors = s.lastErrors := by
  rw [codeGenerationNode]
  split <;> rfl

/-- The commit phase leaves last_errors unchanged whenever it returns. -/
theorem commitAndPR_lastErrors (env : CommitEnv) (s : WorkflowState)
    (o : CommitOutcome) (h : commitAndPR env s = some o) :
    o.state.lastErrors = s.lastErrors := by
  rw [commitAndPR] at h
  split at h
  · cases hcc : s.codeChanges with
    | none => rw [hcc] at h; cases h
    | some cc =>
      rw [hcc] at h
      dsimp only [] at h
      split at h <;> split at h <;> · injection h with h; subst h; rfl
  · injection h with h; subst h; rfl

/-- Shape of one should_retry evaluation: either the retry branch fires
(route main_code_generation, counter incremented, state untouched) or
the result has a nulled last_errors, a route other than generation and
an unchanged counter. -/
theorem shouldRetry_shape (rc : Nat) (s : WorkflowState) (inc : Bool) :
    (shouldRetry rc 3 s inc = ⟨.mainCodeGeneration, rc + 1, s⟩ ∧ rc < 3)
    ∨ ((shouldRetry rc 3 s inc).state.lastErrors = none
        ∧ (shouldRetry rc 3 s inc).route ≠ .mainCodeGeneration
        ∧ (shouldRetry rc 3 s inc).retryCount = rc) := by
  by_cases h1 : trFailing s.testResults = true
  · by_cases h2 : rc < 3
    · left
      rw [shouldRetry, if_pos h1, if_pos h2]
      exact ⟨rfl, h2⟩
    · right
      rw [shouldRetry, if_pos h1, if_neg h2]
      exact ⟨rfl, by simp, rfl⟩
  · right
    rw [shouldRetry, if_neg h1]
    cases inc <;> by_cases hp : trPassing s.testResults = true <;>
      simp [hp]

/-- Run invariant: last_errors is populated only while a retry is
pending, that is, only when the engine is on its way through the
generation phase back to test_and_lint, with at least one retry
consumed. -/
def engineInv (es : EngineState) : Prop :=
  es.w.lastErrors ≠ none →
    (es.phase = .mainCodeGeneration ∨ es.phase = .testAndLintPhase)
    ∧ 1 ≤ es.retryCount

/-- One engine step preserves the run invariant. -/
theorem engineInv_step (env : EngineEnv) (inc : Bool) (es : EngineState)
    (h : engineInv es) : engineInv (engineStep env inc es) := by
  obtain ⟨ph, rc, w, it⟩ := es
  cases ph with
  | issueAnalysis =>
    intro hne
    rcases (h hne).1 with hp | hp <;> cases hp
  | projectUnderstanding =>
    intro hne
    rcases (h hne).1 with hp | hp <;> cases hp
  | planning =>
    intro hne
    rcases (h hne).1 with hp | hp <;> cases hp
  | mainCodeGeneration =>
    intro hne
    rw [show (engineStep env inc ⟨.mainCodeGeneration, rc, w, it⟩).w
        = codeGenerationNode w from rfl, codeGenerationNode_lastErrors] at hne
    exact ⟨Or.inr rfl, (h hne).2⟩
  | testAndLintPhase =>
    intro hne
    rcases shouldRetry_shape rc (testAndLint (env.tlEnvAt it) w).1 inc with
      ⟨heq, hlt⟩ | ⟨hnone, hroute, hrc⟩
    · constructor
      · left
        show (match (shouldRetry rc 3 (testAndLint (env.tlEnvAt it) w).1 inc).route with
          | Route.mainCodeGeneration => Phase.mainCodeGeneration
          | Route.commitAndPr => Phase.commitAndPrPhase
          | Route.stop => Phase.stopped) = Phase.mainCodeGeneration
        rw [heq]
      · show 1 ≤ (shouldRetry rc 3 (testAndLint (env.tlEnvAt it) w).1 inc).retryCount
        rw [heq]
        exact Nat.succ_le_succ (Nat.zero_le rc)
    · exact absurd hnone hne
  | commitAndPrPhase =>
    intro hne
    cases hco : commitAndPR env.commitEnv w with
    | none =>
      rw [show engineStep env inc ⟨.commitAndPrPhase, rc, w, it⟩
          = (match commitAndPR env.commitEnv w with
             | some o => { phase := .stopped, retryCount := rc, w := o.state, iter := it }
             | none => { phase := .aborted, retryCount := rc, w := w, iter := it })
          from rfl, hco] at hne
      rcases (h hne).1 with hp | hp <;> cases hp
    | some o =>
      rw [show engineStep env inc ⟨.commitAndPrPhase, rc, w, it⟩
          = (match commitAndPR env.commitEnv w with
             | some o => { phase := .stopped, retryCount := rc, w := o.state, iter := it }
             | none => { phase := .aborted, retryCount := rc, w := w, iter := it })
          from rfl, hco] at hne
      dsimp only [] at hne
      rw [commitAndPR_lastErrors env.commitEnv w o hco] at hne
      rcases (h hne).1 with hp | hp <;> cases hp
  | stopped => exact h
  | aborted => exact h

/-- C7: in every run started with a null last_errors, last_errors is
null at the end of the run (whenever the engine has stopped, entered
the commit phase, or aborted); it is non-null only while a retry is
pending, that is, between a failing test-and-lint evaluation and the
completion of the next test-and-lint evaluation of the same run, with
at least one retry consumed; and the transition itself nulls
last_errors immediately when the tests did not fail and immediately
when the retry budget is exhausted. -/
theorem c7_last_errors_lifecycle (env : EngineEnv) (inc : Bool)
    (w0 : WorkflowState) (h0 : w0.lastErrors = none) (n : Nat) :
    ((engineRun env inc w0 n).phase = .stopped
        ∨ (engineRun env inc w0 n).phase = .commitAndPrPhase
        ∨ (engineRun env inc w0 n).phase = .aborted →
      (engineRun env inc w0 n).w.lastErrors = none)
    ∧ ((engineRun env inc w0 n).w.lastErrors ≠ none →
      ((engineRun env inc w0 n).phase = .mainCodeGeneration
          ∨ (engineRun env inc w0 n).phase = .testAndLintPhase)
        ∧ 1 ≤ (engineRun env inc w0 n).retryCount)
    ∧ (∀ (s : WorkflowState) (rc : Nat), trFailing s.testResults = false →
        (shouldRetry rc 3 s inc).state.lastErrors = none)
    ∧ (∀ (s : WorkflowState) (rc : Nat), trFailing s.testResults = true → 3 ≤ rc →
        (shouldRetry rc 3 s inc).state.lastErrors = none) := by
  have hinv : engineInv (engineRun env inc w0 n) := by
    induction n with
    | zero =>
      intro hne
      exact absurd h0 hne
    | succ m ih => exact engineInv_step env inc _ ih
  refine ⟨fun hph => ?_, hinv, fun s rc hf => ?_, fun s rc hf hge => ?_⟩
  · cases hle : (engineRun env inc w0 n).w.lastErrors with
    | none => rfl
    | some e =>
      have := (hinv (by rw [hle]; exact Option.noConfusion)).1
      rcases hph with hp | hp | hp <;> rcases this with hq | hq <;>
        rw [hp] at hq <;> cases hq
  · rw [shouldRetry, if_neg (by rw [hf]; exact Bool.false_ne_true)]
    cases inc
    · rfl
    · dsimp only
      by_cases hp : trPassing s.testResults = true
      · rw [if_pos hp]
        rfl
      · rw [if_neg hp]
        rfl
  · rw [shouldRetry, if_pos (by rw [hf]), if_neg (by omega)]

/-- Engine environment whose planning step classifies no file as
relevant, so the first test-and-lint evaluation stops the run. -/
def envRun0 : EngineEnv :=
  ⟨fun t => t, fun _ => {}, fun _ => envTriv, fun _ => none, fun _ => ""⟩

/-- Witness for C7: a concrete five-step run that stops, observed with
a null last_errors at its end. -/
theorem c7_last_errors_lifecycle_witness :
    (engineRun envRun0 false {} 5).phase = .stopped
    ∧ (engineRun envRun0 false {} 5).w.lastErrors = none :=
  ⟨rfl, (c7_last_errors_lifecycle envRun0 false {} rfl 5).1 (Or.inl rfl)⟩

end SDT
